import Mathlib

/-!
Shallow embedding of the PharmaChain service (`app.py`): the tamper-evident
JSON-file ledger (`init_ledger`, `add_block`, the `/api/ledger` read), the
anomaly classification of the telemetry simulation loop, and the simulation
start endpoint. Python floats (timestamps, temperatures) are modelled as
rationals; the ledger file is modelled at two levels, as the parsed chain
(`LedgerFile`) for the functional claims and as raw text (`serializeChain`,
`interruptedWrite`) for the write-failure analysis. SHA-256 and the canonical
JSON encoding are implemented in full so every definition is executable.
-/

namespace PharmaChain

/-- JSON values, as produced by the Python layer. Python distinguishes `int`
and `float` values and `json.dumps` renders them differently, so we keep two
numeric constructors. -/
inductive Json where
  | null
  | bool (b : Bool)
  | int (n : Int)
  | float (q : ℚ)
  | str (s : String)
  | arr (elems : List Json)
  | obj (fields : List (String × Json))

/-- Hex digit used in `\uXXXX` escapes (uppercase is not used by Python's
json encoder for these; it emits lowercase). -/
def hexDigitChar (n : Nat) : Char :=
  match n with
  | 0 => '0' | 1 => '1' | 2 => '2' | 3 => '3'
  | 4 => '4' | 5 => '5' | 6 => '6' | 7 => '7'
  | 8 => '8' | 9 => '9' | 10 => 'a' | 11 => 'b'
  | 12 => 'c' | 13 => 'd' | 14 => 'e' | _ => 'f'

def uEscape (n : Nat) : String :=
  String.mk ['\\', 'u', hexDigitChar ((n >>> 12) % 16), hexDigitChar ((n >>> 8) % 16),
             hexDigitChar ((n >>> 4) % 16), hexDigitChar (n % 16)]

/-- Escape one character the way Python `json.dumps` (with the default
`ensure_ascii=True`) does. -/
def escapeChar (c : Char) : String :=
  if c = '"' then "\\\""
  else if c = '\\' then "\\\\"
  else if c = '\n' then "\\n"
  else if c = '\t' then "\\t"
  else if c = '\r' then "\\r"
  else if c.toNat = 8 then "\\b"
  else if c.toNat = 12 then "\\f"
  else if c.toNat < 32 then uEscape c.toNat
  else if c.toNat < 128 then String.mk [c]
  else if c.toNat < 65536 then uEscape c.toNat
  else
    let v := c.toNat - 65536
    uEscape (55296 + (v >>> 10)) ++ uEscape (56320 + (v % 1024))

/-- A JSON string literal, quoted and escaped. -/
def quoteStr (s : String) : String :=
  "\"" ++ String.join (s.toList.map escapeChar) ++ "\""

/-- Drop trailing zero digits of a fractional part. -/
def stripTrailingZeros (l : List Char) : List Char :=
  (l.reverse.dropWhile (fun c => c = '0')).reverse

def padZerosTo (n : Nat) (s : List Char) : List Char :=
  List.replicate (n - s.length) '0' ++ s

/-- Rendering of a Python float as `str`/`json.dumps` produce it, modelled on
rationals: exact for integral values (`1700000000.0` style); for non-integral
values a fixed-precision decimal expansion (17 fractional digits, trailing
zeros stripped) stands in for Python's shortest round-trip repr. No claim in
this development depends on the digits of a non-integral rendering. -/
def floatRepr (q : ℚ) : String :=
  if q.den = 1 then toString q.num ++ ".0"
  else
    let sign := if q.num < 0 then "-" else ""
    let a := q.num.natAbs
    let ipart := a / q.den
    let fdigits := a % q.den * 10 ^ 17 / q.den
    let fs := stripTrailingZeros (padZerosTo 17 (Nat.toDigits 10 fdigits))
    sign ++ toString ipart ++ "." ++ String.mk (if fs = [] then ['0'] else fs)

/-- Insert a rendered key/value pair into a list sorted by key (Python's
`sort_keys=True` sorts by code-point order, which is `String` order). -/
def insertByKey (p : String × String) : List (String × String) → List (String × String)
  | [] => [p]
  | q :: rest => if p.1 ≤ q.1 then p :: q :: rest else q :: insertByKey p rest

def sortByKey (l : List (String × String)) : List (String × String) :=
  l.foldr insertByKey []

def joinComma (l : List String) : String :=
  String.intercalate ", " l

mutual

/-- The canonical encoder: Python `json.dumps(value, sort_keys=True)` with the
default separators `", "` and `": "` and `ensure_ascii=True`. Object fields
are rendered and then sorted by key, which agrees with sorting first since the
sort key is the field name. -/
def jsonDumps : Json → String
  | .null => "null"
  | .bool b => if b then "true" else "false"
  | .int n => toString n
  | .float q => floatRepr q
  | .str s => quoteStr s
  | .arr elems => "[" ++ joinComma (jsonDumpsList elems) ++ "]"
  | .obj fields =>
      "\x7b" ++
        joinComma ((sortByKey (jsonDumpsPairs fields)).map
          (fun kv => quoteStr kv.1 ++ ": " ++ kv.2)) ++
      "\x7d"

/-- Renderings of the elements of a JSON array, in order. -/
def jsonDumpsList : List Json → List String
  | [] => []
  | x :: xs => jsonDumps x :: jsonDumpsList xs

/-- Key/rendered-value pairs of a JSON object, in construction order. -/
def jsonDumpsPairs : List (String × Json) → List (String × String)
  | [] => []
  | (k, v) :: xs => (k, jsonDumps v) :: jsonDumpsPairs xs

end

/-- Truncation to a 32-bit word. -/
def w32 (n : Nat) : Nat := n % 4294967296

/-- 32-bit right rotation. -/
def rotr32 (x n : Nat) : Nat := w32 ((x >>> n) ||| (x <<< (32 - n)))

def bsig0 (x : Nat) : Nat := rotr32 x 2 ^^^ rotr32 x 13 ^^^ rotr32 x 22
def bsig1 (x : Nat) : Nat := rotr32 x 6 ^^^ rotr32 x 11 ^^^ rotr32 x 25
def ssig0 (x : Nat) : Nat := rotr32 x 7 ^^^ rotr32 x 18 ^^^ (x >>> 3)
def ssig1 (x : Nat) : Nat := rotr32 x 17 ^^^ rotr32 x 19 ^^^ (x >>> 10)
def chFn (x y z : Nat) : Nat := (x &&& y) ^^^ ((x ^^^ 4294967295) &&& z)
def majFn (x y z : Nat) : Nat := (x &&& y) ^^^ (x &&& z) ^^^ (y &&& z)

/-- The 64 SHA-256 round constants of FIPS 180-4, in decimal. -/
def K256 : List Nat :=
  [1116352408, 1899447441, 3049323471, 3921009573, 961987163, 1508970993,
   2453635748, 2870763221, 3624381080, 310598401, 607225278, 1426881987,
   1925078388, 2162078206, 2614888103, 3248222580, 3835390401, 4022224774,
   264347078, 604807628, 770255983, 1249150122, 1555081692, 1996064986,
   2554220882, 2821834349, 2952996808, 3210313671, 3336571891, 3584528711,
   113926993, 338241895, 666307205, 773529912, 1294757372, 1396182291,
   1695183700, 1986661051, 2177026350, 2456956037, 2730485921, 2820302411,
   3259730800, 3345764771, 3516065817, 3600352804, 4094571909, 275423344,
   430227734, 506948616, 659060556, 883997877, 958139571, 1322822218,
   1537002063, 1747873779, 1955562222, 2024104815, 2227730452, 2361852424,
   2428436474, 2756734187, 3204031479, 3329325298]

/-- Big-endian 8-byte rendering of a length in bits. -/
def be8 (n : Nat) : List Nat :=
  (List.range 8).map (fun i => n >>> (8 * (7 - i)) % 256)

/-- SHA-256 padding: append `0x80`, zero bytes to 56 mod 64, then the 64-bit
big-endian bit length. -/
def sha256pad (msg : List Nat) : List Nat :=
  msg ++ (128 :: List.replicate ((119 - msg.length % 64) % 64) 0) ++ be8 (8 * msg.length)

/-- Pack bytes into 32-bit big-endian words. -/
def toWordsBE : List Nat → List Nat
  | a :: b :: c :: d :: rest => (a <<< 24 ||| b <<< 16 ||| c <<< 8 ||| d) :: toWordsBE rest
  | _ => []

/-- Split a word list into 16-word message blocks. The fuel argument of
`chunks16Aux` only drives structural termination; `chunks16` passes the list
length, which always suffices since each step consumes at least one element. -/
def chunks16Aux : Nat → List Nat → List (List Nat)
  | 0, _ => []
  | _ + 1, [] => []
  | fuel + 1, a :: rest => (a :: rest).take 16 :: chunks16Aux fuel ((a :: rest).drop 16)

def chunks16 (l : List Nat) : List (List Nat) :=
  chunks16Aux l.length l

/-- Extend a 16-word block by `n` schedule words. -/
def extendSchedule (w : List Nat) : Nat → List Nat
  | 0 => w
  | n + 1 =>
      let v := extendSchedule w n
      v ++ [w32 (ssig1 (v.getD (v.length - 2) 0) + v.getD (v.length - 7) 0 +
                 ssig0 (v.getD (v.length - 15) 0) + v.getD (v.length - 16) 0)]

/-- Working state of the compression loop. -/
structure Hash8 where
  a : Nat
  b : Nat
  c : Nat
  d : Nat
  e : Nat
  f : Nat
  g : Nat
  h : Nat

def roundStep (w : List Nat) (st : Hash8) (i : Nat) : Hash8 :=
  let t1 := w32 (st.h + bsig1 st.e + chFn st.e st.f st.g + K256.getD i 0 + w.getD i 0)
  let t2 := w32 (bsig0 st.a + majFn st.a st.b st.c)
  { a := w32 (t1 + t2), b := st.a, c := st.b, d := st.c,
    e := w32 (st.d + t1), f := st.e, g := st.f, h := st.g }

/-- One SHA-256 compression: fold 64 rounds over the extended schedule and add
the result back into the chaining value. -/
def compress (h : List Nat) (block : List Nat) : List Nat :=
  let w := extendSchedule block 48
  let init : Hash8 :=
    { a := h.getD 0 0, b := h.getD 1 0, c := h.getD 2 0, d := h.getD 3 0,
      e := h.getD 4 0, f := h.getD 5 0, g := h.getD 6 0, h := h.getD 7 0 }
  let fin := (List.range 64).foldl (roundStep w) init
  [w32 (h.getD 0 0 + fin.a), w32 (h.getD 1 0 + fin.b), w32 (h.getD 2 0 + fin.c),
   w32 (h.getD 3 0 + fin.d), w32 (h.getD 4 0 + fin.e), w32 (h.getD 5 0 + fin.f),
   w32 (h.getD 6 0 + fin.g), w32 (h.getD 7 0 + fin.h)]

/-- The eight SHA-256 initial hash values of FIPS 180-4, in decimal. -/
def sha256initH : List Nat :=
  [1779033703, 3144134277, 1013904242, 2773480762,
   1359893119, 2600822924, 528734635, 1541459225]

/-- The eight 32-bit digest words of SHA-256 over a byte list. -/
def sha256words (msg : List Nat) : List Nat :=
  (chunks16 (toWordsBE (sha256pad msg))).foldl compress sha256initH

/-- The eight lowercase hex characters of one digest word. -/
def hexCharsOfWord (w : Nat) : List Char :=
  (List.range 8).map (fun i => hexDigitChar (w >>> (4 * (7 - i)) % 16))

/-- The UTF-8 bytes of a string. The canonical encoder only emits ASCII (it
escapes every code point at or above 128, like `ensure_ascii=True`), so the
code-point list is exactly the byte list `str.encode()` yields in the source. -/
def strBytes (s : String) : List Nat := s.toList.map Char.toNat

/-- `hashlib.sha256(s.encode()).hexdigest()`: the SHA-256 digest of a string,
as 64 lowercase hexadecimal characters. -/
def sha256hex (s : String) : String :=
  String.mk ((sha256words (strBytes s)).map hexCharsOfWord).flatten

/-- A ledger block, with the field layout of the dicts built in `init_ledger`
and `add_block` (insertion order: index, timestamp, prev_hash, data, hash). -/
structure Block where
  index : Nat
  timestamp : ℚ
  prev_hash : String
  data : Json
  hash : String

/-- The genesis sentinel `"0" * 64`. -/
def zeroHash : String := String.mk (List.replicate 64 '0')

/-- The genesis block written by `init_ledger` when the ledger file is absent:
its hash is SHA-256 of the canonical encoding of the data alone. -/
def genesisBlock (t : ℚ) : Block :=
  let data := Json.obj [("genesis", Json.bool true)]
  { index := 0
    timestamp := t
    prev_hash := zeroHash
    data := data
    hash := sha256hex (jsonDumps data) }

/-- The persisted ledger file, parsed: `none` when `ledger.json` does not
exist, `some chain` when it holds the JSON array `chain`. -/
def LedgerFile : Type := Option (List Block)

/-- `init_ledger`: write a fresh genesis chain if the file is absent,
otherwise leave the file untouched. `t` is the `time.time()` observed. -/
def init_ledger (st : LedgerFile) (t : ℚ) : LedgerFile :=
  match st with
  | none => some [genesisBlock t]
  | some c => some c

/-- The chain `add_block` reads after its bootstrap check: the stored chain,
or the fresh genesis chain that `init_ledger` just wrote. -/
def loadOrInit (st : LedgerFile) (tg : ℚ) : List Block :=
  match st with
  | none => [genesisBlock tg]
  | some c => c

/-- The successor block `add_block` builds from the current tail: index one
past the tail, `prev_hash` the tail's hash, and hash SHA-256 of canonical
data followed by `str(timestamp)` followed by `prev_hash`. -/
def newBlock (last : Block) (event_type : String) (payload : Json) (t : ℚ) : Block :=
  let data := Json.obj [("event", Json.str event_type), ("payload", payload)]
  { index := last.index + 1
    timestamp := t
    prev_hash := last.hash
    data := data
    hash := sha256hex (jsonDumps data ++ floatRepr t ++ last.hash) }

/-- `add_block`: bootstrap if the file is absent (at time `tg`), read the
chain, derive one block from the tail (at time `t`), and write the extended
chain back. A stored empty array would make `chain[-1]` raise, leaving the
file as it was and returning no block, hence the `Option` result. -/
def add_block (st : LedgerFile) (event_type : String) (payload : Json) (tg t : ℚ) :
    LedgerFile × Option Block :=
  let chain := loadOrInit st tg
  match chain.getLast? with
  | none => (some chain, none)
  | some last =>
      let b := newBlock last event_type payload t
      (some (chain ++ [b]), some b)

/-- A whole history of `add_block` calls, each with its event type, payload,
bootstrap time and append time. -/
def runAppends (st : LedgerFile) : List (String × Json × ℚ × ℚ) → LedgerFile
  | [] => st
  | (et, p, tg, t) :: rest => runAppends (add_block st et p tg t).1 rest

/-- Python's `chain[-limit:]`, with full slice semantics: the start index is
`s = -limit`; a negative start counts from the end and clamps at 0 (which
`Int.toNat` performs), a non-negative start clamps at the length (which
`List.drop`'s saturation performs). -/
def pySliceSuffix (chain : List Block) (limit : Int) : List Block :=
  let s : Int := -limit
  if s < 0 then chain.drop ((chain.length : Int) + s).toNat
  else chain.drop s.toNat

/-- The `/api/ledger` read: an absent file is reported as an empty chain
(no bootstrap), otherwise the slice `chain[-limit:]` is returned. -/
def api_ledger (st : LedgerFile) (limit : Int) : List Block :=
  match st with
  | none => []
  | some chain => pySliceSuffix chain limit

/-- Two spaces per indentation level, as `indent=2` produces. -/
def pad2 (level : Nat) : String := String.mk (List.replicate (2 * level) ' ')

mutual

/-- Python `json.dumps(value, indent=2)` (no key sorting), the format
`add_block` and `init_ledger` persist: items separated by `",\n"`, children
indented two further spaces, empty containers rendered inline. -/
def dumpsIndent (level : Nat) : Json → String
  | .null => "null"
  | .bool b => if b then "true" else "false"
  | .int n => toString n
  | .float q => floatRepr q
  | .str s => quoteStr s
  | .arr [] => "[]"
  | .arr (x :: xs) =>
      "[\n" ++ String.intercalate ",\n" (dumpsIndentList (level + 1) (x :: xs)) ++
      "\n" ++ pad2 level ++ "]"
  | .obj [] => "\x7b\x7d"
  | .obj (kv :: kvs) =>
      "\x7b\n" ++ String.intercalate ",\n" (dumpsIndentPairs (level + 1) (kv :: kvs)) ++
      "\n" ++ pad2 level ++ "\x7d"

/-- Indented renderings of array elements, each on its own line. -/
def dumpsIndentList (level : Nat) : List Json → List String
  | [] => []
  | x :: xs => (pad2 level ++ dumpsIndent level x) :: dumpsIndentList level xs

/-- Indented `"key": value` lines of an object, in construction order. -/
def dumpsIndentPairs (level : Nat) : List (String × Json) → List String
  | [] => []
  | (k, v) :: kvs =>
      (pad2 level ++ quoteStr k ++ ": " ++ dumpsIndent level v) :: dumpsIndentPairs level kvs

end

/-- The JSON value a block is persisted as, field order as constructed. -/
def blockJson (b : Block) : Json :=
  Json.obj [("index", Json.int b.index), ("timestamp", Json.float b.timestamp),
            ("prev_hash", Json.str b.prev_hash), ("data", b.data),
            ("hash", Json.str b.hash)]

/-- The exact text `json.dump(chain, f, indent=2)` writes for a chain. -/
def serializeChain (c : List Block) : String :=
  dumpsIndent 0 (Json.arr (c.map blockJson))

/-- The file text observable when the in-place rewrite in `add_block`
(`f.seek(0)`, `json.dump`, `f.truncate()`) is interrupted after `k`
characters: a prefix of the new text over the remainder of the old. The
source takes no temp-file/rename step, so this intermediate text is the
file's content if the dump raises midway. -/
def interruptedWrite (old new : String) (k : Nat) : String :=
  String.mk (new.toList.take k ++ old.toList.drop k)

/-- Full overwrite of the ledger file, as the completed
`seek(0)`/`dump`/`truncate` sequence leaves it: the previous content is gone.
Taking the previous state as an argument records the write order. -/
def overwriteFile (_prev : LedgerFile) (c : List Block) : LedgerFile :=
  some c

/-- An interleaving the unsynchronized `add_block` admits: two calls both
pass the existence check and both execute `json.load` and `chain[-1]` before
either writes. Each then computes a successor of the same tail; the first
write lands, and the second `seek(0)`/`dump`/`truncate` replaces it. Nothing
in `add_block` (which takes no lock) prevents this schedule. -/
def lostUpdateSchedule (st : LedgerFile) (et1 et2 : String) (p1 p2 : Json)
    (tg t1 t2 : ℚ) : LedgerFile :=
  let chain := loadOrInit st tg
  match chain.getLast? with
  | none => some chain
  | some last =>
      let blockA := newBlock last et1 p1 t1
      let blockB := newBlock last et2 p2 t2
      let afterA := overwriteFile (some chain) (chain ++ [blockA])
      overwriteFile afterA (chain ++ [blockB])

/-- Chain length of a ledger file state (0 when absent). -/
def chainLenAfter (st : LedgerFile) : Nat :=
  match st with
  | none => 0
  | some c => c.length

/-- One sampled telemetry reading of the simulation loop. Temperatures are
modelled as rationals (the loop rounds its floats to two decimals). -/
structure Reading where
  lat : ℚ
  lon : ℚ
  temp : ℚ
  humidity : ℚ
  pressure : ℚ
  tamper : Bool

/-- The alert condition of the simulation loop, verbatim from
`if tamper or temp < 2 or temp > 30`. -/
def isAnomalous (r : Reading) : Bool :=
  r.tamper || decide (r.temp < 2) || decide (30 < r.temp)

/-- The payload the loop attaches to an `"ALERT"` block: shipment id,
temperature, tamper flag, and the ISO timestamp string. -/
def alertPayload (sid : String) (r : Reading) (ts : String) : Json :=
  Json.obj [("shipment_id", Json.str sid), ("temp", Json.float r.temp),
            ("tamper", Json.bool r.tamper), ("ts", Json.str ts)]

/-- The ledger appends one tick performs for one shipment: after recording
the reading in the relational store (outside the ledger), the loop calls
`add_block("ALERT", payload)` exactly when the reading is anomalous, and
otherwise does not touch the ledger. -/
def tickShipmentAppends (sid : String) (r : Reading) (ts : String) : List (String × Json) :=
  if isAnomalous r then [("ALERT", alertPayload sid r ts)] else []

/-- The controller state touched by `/api/simulate/start`: whether the
simulation thread is alive, the stop event, the shipment rows inserted so
far, and how many generator threads were ever launched. -/
structure SimState where
  threadAlive : Bool
  stopSet : Bool
  shipments : List String
  threadsStarted : Nat

/-- The roster `[f"SHIP-SIM-{i}" for i in range(1, shipment_count + 1)]`. -/
def simRoster (count : Nat) : List String :=
  (List.range' 1 count).map (fun i => "SHIP-SIM-" ++ toString i)

/-- `/api/simulate/start`: reject with an HTTP 409-style conflict when the
simulation thread is alive — before any insert, before clearing the stop
event, and before starting a thread — otherwise insert the roster, clear the
stop event, and launch one generator thread. -/
def api_simulate_start (st : SimState) (count : Nat) :
    SimState × Except String (List String) :=
  if st.threadAlive then
    (st, Except.error "Simulation already running")
  else
    let ids := simRoster count
    ({ threadAlive := true
       stopSet := false
       shipments := st.shipments ++ ids
       threadsStarted := st.threadsStarted + 1 },
     Except.ok ids)

/-- Recomputation of a block's hash from its own stored fields, as a chain
verifier would: the genesis block (index 0) hashes the canonical data alone,
every other block hashes canonical data, then `str(timestamp)`, then
`prev_hash`. -/
def recomputeHash (b : Block) : String :=
  if b.index = 0 then sha256hex (jsonDumps b.data)
  else sha256hex (jsonDumps b.data ++ floatRepr b.timestamp ++ b.prev_hash)

/-- A lowercase hexadecimal character. -/
def isHexChar (c : Char) : Prop := c ∈ "0123456789abcdef".toList

instance (c : Char) : Decidable (isHexChar c) := by
  unfold isHexChar
  infer_instance

/-- Hash correctness of one block, together with the digest shape: 64
lowercase hexadecimal characters. -/
def blockHashOk (b : Block) : Prop :=
  b.hash = recomputeHash b ∧ b.hash.length = 64 ∧ ∀ c ∈ b.hash.toList, isHexChar c

/-- Hash correctness for every block of a chain. -/
def hashCorrect (chain : List Block) : Prop :=
  ∀ b ∈ chain, blockHashOk b

/-- Contiguity: the block at position `i` carries index `i`. -/
def contiguous (chain : List Block) : Prop :=
  ∀ i, (h : i < chain.length) → (chain.get ⟨i, h⟩).index = i

/-- Linkage: every non-genesis position points at its predecessor's hash. -/
def linked (chain : List Block) : Prop :=
  ∀ i, (h : i < chain.length) → 0 < i →
    (chain.get ⟨i, h⟩).prev_hash = (chain.get ⟨i - 1, by omega⟩).hash

instance (chain : List Block) : Decidable (contiguous chain) := by
  unfold contiguous
  infer_instance

instance (chain : List Block) : Decidable (linked chain) := by
  unfold linked
  infer_instance

lemma compress_length (h b : List Nat) : (compress h b).length = 8 := rfl

lemma foldl_compress_length (l : List (List Nat)) (acc : List Nat)
    (h : acc.length = 8) : (l.foldl compress acc).length = 8 := by
  induction l generalizing acc with
  | nil => simpa using h
  | cons x xs ih => exact ih _ (compress_length _ _)

lemma sha256words_length (m : List Nat) : (sha256words m).length = 8 :=
  foldl_compress_length _ _ rfl

lemma hexCharsOfWord_length (w : Nat) : (hexCharsOfWord w).length = 8 := by
  simp [hexCharsOfWord]

lemma flatten_hexChars_length (ws : List Nat) :
    ((ws.map hexCharsOfWord).flatten).length = 8 * ws.length := by
  induction ws with
  | nil => simp
  | cons w ws ih =>
      simp only [List.map_cons, List.flatten_cons, List.length_append,
        hexCharsOfWord_length, ih, List.length_cons]
      ring

/-- A digest is always rendered as exactly 64 characters. -/
lemma sha256hex_length (s : String) : (sha256hex s).length = 64 := by
  show ((((sha256words (strBytes s)).map hexCharsOfWord).flatten)).length = 64
  rw [flatten_hexChars_length, sha256words_length]

lemma hexDigitChar_mem (n : Nat) : hexDigitChar n ∈ "0123456789abcdef".toList := by
  unfold hexDigitChar
  split <;> decide

/-- Every character of a rendered digest is a lowercase hex character. -/
lemma sha256hex_chars (s : String) : ∀ c ∈ (sha256hex s).toList, isHexChar c := by
  intro c hc
  have hc2 : c ∈ ((sha256words (strBytes s)).map hexCharsOfWord).flatten := hc
  rw [List.mem_flatten] at hc2
  obtain ⟨l, hl, hcl⟩ := hc2
  rw [List.mem_map] at hl
  obtain ⟨w, _, rfl⟩ := hl
  unfold hexCharsOfWord at hcl
  rw [List.mem_map] at hcl
  obtain ⟨i, _, rfl⟩ := hcl
  exact hexDigitChar_mem _

lemma blockHashOk_genesis (t : ℚ) : blockHashOk (genesisBlock t) := by
  refine ⟨?_, sha256hex_length _, sha256hex_chars _⟩
  simp [genesisBlock, recomputeHash]

lemma blockHashOk_newBlock (last : Block) (et : String) (p : Json) (t : ℚ) :
    blockHashOk (newBlock last et p t) := by
  refine ⟨?_, sha256hex_length _, sha256hex_chars _⟩
  simp [newBlock, recomputeHash]

lemma hashCorrect_loadOrInit (st : LedgerFile) (tg : ℚ)
    (hst : ∀ c, st = some c → hashCorrect c) : hashCorrect (loadOrInit st tg) := by
  match st with
  | none =>
      intro b hb
      rw [loadOrInit, List.mem_singleton] at hb
      exact hb ▸ blockHashOk_genesis tg
  | some c => exact hst c rfl

lemma add_block_eq_none (st : LedgerFile) (et : String) (p : Json) (tg t : ℚ)
    (hl : (loadOrInit st tg).getLast? = none) :
    add_block st et p tg t = (some (loadOrInit st tg), none) := by
  simp only [add_block]
  rw [hl]

lemma add_block_eq_some (st : LedgerFile) (et : String) (p : Json) (tg t : ℚ)
    (last : Block) (hl : (loadOrInit st tg).getLast? = some last) :
    add_block st et p tg t =
      (some (loadOrInit st tg ++ [newBlock last et p t]), some (newBlock last et p t)) := by
  simp only [add_block]
  rw [hl]

lemma hashCorrect_add_block (st : LedgerFile) (et : String) (p : Json) (tg t : ℚ)
    (hst : ∀ c, st = some c → hashCorrect c) :
    ∀ chain, (add_block st et p tg t).1 = some chain → hashCorrect chain := by
  intro chain h
  have hload := hashCorrect_loadOrInit st tg hst
  rcases hl : (loadOrInit st tg).getLast? with _ | last
  · rw [add_block_eq_none st et p tg t hl] at h
    obtain rfl := Option.some_inj.mp h
    exact hload
  · rw [add_block_eq_some st et p tg t last hl] at h
    obtain rfl := Option.some_inj.mp h
    intro b hb
    rcases List.mem_append.mp hb with hb | hb
    · exact hload b hb
    · rw [List.mem_singleton] at hb
      exact hb ▸ blockHashOk_newBlock last et p t

lemma hashCorrect_runAppends :
    ∀ (evs : List (String × Json × ℚ × ℚ)) (st : LedgerFile),
      (∀ c, st = some c → hashCorrect c) →
      ∀ chain, runAppends st evs = some chain → hashCorrect chain := by
  intro evs
  induction evs with
  | nil =>
      intro st hst chain h
      exact hst chain h
  | cons ev rest ih =>
      intro st hst chain h
      obtain ⟨et, p, tg, t⟩ := ev
      exact ih _ (hashCorrect_add_block st et p tg t hst) chain h

/-- C1: every block of a persisted chain — a chain produced by ledger
initialization followed by any sequence of `add_block` calls — stores as its
`hash` exactly the digest recomputed from its own fields: SHA-256 of the
canonical encoding of `data` alone for the genesis block (index 0), and
SHA-256 of canonical `data`, then `str(timestamp)`, then `prev_hash` for
every other block, rendered as a 64-character lowercase hexadecimal string. -/
theorem ledger_hash_correct (t0 : ℚ) (evs : List (String × Json × ℚ × ℚ))
    (chain : List Block) (h : runAppends (init_ledger none t0) evs = some chain) :
    ∀ b ∈ chain, b.hash = recomputeHash b ∧ b.hash.length = 64 ∧
      ∀ c ∈ b.hash.toList, isHexChar c := by
  refine hashCorrect_runAppends evs (init_ledger none t0) ?_ chain h
  intro c hc
  rw [init_ledger, Option.some.injEq] at hc
  intro b hb
  rw [← hc, List.mem_singleton] at hb
  exact hb ▸ blockHashOk_genesis t0

/-- Witness for C1: a concrete two-block chain — genesis plus one
`REGISTER_BATCH` append — satisfies the recomputation invariant. -/
theorem ledger_hash_correct_witness :
    runAppends (init_ledger none 0) [("REGISTER_BATCH", Json.str "b", 0, 1)] =
      some [genesisBlock 0, newBlock (genesisBlock 0) "REGISTER_BATCH" (Json.str "b") 1] ∧
    ∀ b ∈ [genesisBlock 0, newBlock (genesisBlock 0) "REGISTER_BATCH" (Json.str "b") 1],
      b.hash = recomputeHash b ∧ b.hash.length = 64 ∧
        ∀ c ∈ b.hash.toList, isHexChar c :=
  ⟨rfl, ledger_hash_correct 0 [("REGISTER_BATCH", Json.str "b", 0, 1)] _ rfl⟩

/-- C2: on a well-formed persisted chain, one `add_block` call appends
exactly one block at the tail — its `index` one past the previous tail's and
its `prev_hash` the previous tail's `hash` — leaves every previously written
block in place, and preserves the contiguity and linkage invariants. -/
theorem add_block_extends (chain : List Block) (et : String) (p : Json) (tg t : ℚ)
    (hne : chain ≠ []) (hc : contiguous chain) (hk : linked chain) :
    ∃ b last, chain.getLast? = some last ∧
      add_block (some chain) et p tg t = (some (chain ++ [b]), some b) ∧
      b.index = last.index + 1 ∧
      b.prev_hash = last.hash ∧
      (chain ++ [b]).take chain.length = chain ∧
      contiguous (chain ++ [b]) ∧
      linked (chain ++ [b]) := by
  have hlen : 0 < chain.length := List.length_pos.mpr hne
  have hlast : chain.getLast? = some (chain.getLast hne) :=
    List.getLast?_eq_getLast chain hne
  set last := chain.getLast hne with hlastdef
  have hlast_elem : last = chain.get ⟨chain.length - 1, by omega⟩ := by
    rw [hlastdef, List.getLast_eq_getElem]
    simp
  have hlast_idx : last.index = chain.length - 1 := by
    rw [hlast_elem]
    exact hc (chain.length - 1) (by omega)
  refine ⟨newBlock last et p t, last, hlast, add_block_eq_some _ _ _ _ _ _ hlast,
    rfl, rfl, List.take_left _ _, ?_, ?_⟩
  · intro i h
    have hlen2 : (chain ++ [newBlock last et p t]).length = chain.length + 1 := by simp
    rcases Nat.lt_or_ge i chain.length with hi | hi
    · have : (chain ++ [newBlock last et p t]).get ⟨i, h⟩ = chain.get ⟨i, hi⟩ := by
        simp [List.get_eq_getElem, List.getElem_append_left hi]
      rw [this]
      exact hc i hi
    · have hieq : i = chain.length := by omega
      have : (chain ++ [newBlock last et p t]).get ⟨i, h⟩ = newBlock last et p t := by
        simp [List.get_eq_getElem, List.getElem_concat_length _ _ _ hieq]
      rw [this]
      show last.index + 1 = i
      omega
  · intro i h hpos
    have hlen2 : (chain ++ [newBlock last et p t]).length = chain.length + 1 := by simp
    rcases Nat.lt_or_ge i chain.length with hi | hi
    · have h1 : (chain ++ [newBlock last et p t]).get ⟨i, h⟩ = chain.get ⟨i, hi⟩ := by
        simp [List.get_eq_getElem, List.getElem_append_left hi]
      have h2 : (chain ++ [newBlock last et p t]).get ⟨i - 1, by omega⟩ =
          chain.get ⟨i - 1, by omega⟩ := by
        simp [List.get_eq_getElem, List.getElem_append_left (show i - 1 < chain.length by omega)]
      rw [h1, h2]
      exact hk i hi hpos
    · have hieq : i = chain.length := by omega
      subst hieq
      have h1 : (chain ++ [newBlock last et p t]).get ⟨chain.length, h⟩ = newBlock last et p t := by
        simp [List.get_eq_getElem]
      have h2 : (chain ++ [newBlock last et p t]).get ⟨chain.length - 1, by omega⟩ =
          chain.get ⟨chain.length - 1, by omega⟩ := by
        simp [List.get_eq_getElem,
          List.getElem_append_left (show chain.length - 1 < chain.length by omega)]
      rw [h1, h2, ← hlast_elem]
      rfl

/-- Witness for C2: appending to the one-block genesis chain. -/
theorem add_block_extends_witness :
    ([genesisBlock 0] ≠ [] ∧ contiguous [genesisBlock 0] ∧ linked [genesisBlock 0]) ∧
    (∃ b last, ([genesisBlock 0] : List Block).getLast? = some last ∧
      add_block (some [genesisBlock 0]) "ALERT" Json.null 0 1 =
        (some ([genesisBlock 0] ++ [b]), some b) ∧
      b.index = last.index + 1 ∧
      b.prev_hash = last.hash ∧
      ([genesisBlock 0] ++ [b]).take 1 = [genesisBlock 0] ∧
      contiguous ([genesisBlock 0] ++ [b]) ∧
      linked ([genesisBlock 0] ++ [b])) :=
  ⟨⟨by simp, by decide, by decide⟩,
    add_block_extends [genesisBlock 0] "ALERT" Json.null 0 1 (by simp) (by decide) (by decide)⟩

/-- C3 (code refutation): `add_block` takes no lock, so the schedule in which
two concurrent appends both read the genesis chain before either writes is
admissible. Both compute a successor with the same index 1, and the second
full-file write replaces the first: the chain ends with 2 blocks where K = 2
serialized appends must leave 1 + 2 = 3. -/
theorem concurrent_append_lost_update :
    chainLenAfter (lostUpdateSchedule (some [genesisBlock 0]) "ALERT" "ALERT"
        (Json.str "a") (Json.str "b") 0 1 2) = 2 ∧
    (newBlock (genesisBlock 0) "ALERT" (Json.str "a") 1).index =
      (newBlock (genesisBlock 0) "ALERT" (Json.str "b") 2).index ∧
    (2 : Nat) ≠ 1 + 2 :=
  ⟨rfl, rfl, by decide⟩

/-- The persisted one-block chain the write-failure counterexample starts
from. -/
def cexOldChain : List Block := [genesisBlock 0]

/-- The extended chain the interrupted append was writing. -/
def cexNewChain : List Block :=
  [genesisBlock 0, newBlock (genesisBlock 0) "ALERT" (Json.str "x") 1]

def cexOldText : String := serializeChain cexOldChain

def cexNewText : String := serializeChain cexNewChain

set_option maxRecDepth 100000 in
/-- C4 (code refutation): `add_block` rewrites `ledger.json` in place
(`seek(0)`, `json.dump`, `truncate`). If the dump raises one character short
of completing the old text's extent, the file holds neither the previously
persisted chain's text nor the new chain's text — a reader observes a corrupt
ledger, although the exception itself does propagate to the caller. -/
theorem interrupted_write_corrupts :
    interruptedWrite cexOldText cexNewText (cexOldText.length - 1) ≠ cexOldText ∧
    interruptedWrite cexOldText cexNewText (cexOldText.length - 1) ≠ cexNewText := by
  constructor <;> decide

/-- C5 (counterexample): with `limit = 0` the slice `chain[-limit:]` is
`chain[0:]`, the whole chain — on the one-block genesis chain, `read(0)`
returns 1 block, more than the claimed bound of at most 0. -/
theorem api_ledger_zero_limit_cex :
    (api_ledger (some [genesisBlock 0]) 0).length = 1 ∧
    ¬((api_ledger (some [genesisBlock 0]) 0).length ≤ 0) := by
  decide

/-- C5 (amended): for every chain and every limit of at least 1, the read
endpoint returns the suffix of the last `limit` blocks — the most-recent
window, oldest first, in chain order — and hence at most `limit` blocks.
(For `limit = 0` the whole chain comes back, and for negative limits the
slice drops `-limit` blocks from the front.) -/
theorem api_ledger_limit_pos (chain : List Block) (limit : Int) (h : 1 ≤ limit) :
    api_ledger (some chain) limit = chain.drop (chain.length - limit.toNat) ∧
    (api_ledger (some chain) limit).length ≤ limit.toNat := by
  have hs : -limit < 0 := by omega
  have heq : api_ledger (some chain) limit = chain.drop (chain.length - limit.toNat) := by
    simp only [api_ledger, pySliceSuffix]
    rw [if_pos hs]
    congr 1
    omega
  refine ⟨heq, ?_⟩
  rw [heq, List.length_drop]
  omega

/-- Witness for C5 (amended): `read(1)` on the genesis chain. -/
theorem api_ledger_limit_pos_witness :
    (1 : Int) ≤ 1 ∧
    (api_ledger (some [genesisBlock 0]) 1 = ([genesisBlock 0] : List Block).drop 0 ∧
      (api_ledger (some [genesisBlock 0]) 1).length ≤ 1) :=
  ⟨by decide, api_ledger_limit_pos [genesisBlock 0] 1 (by decide)⟩

/-- C6 (counterexample): on a fresh store (no ledger file), `read(50)` does
not materialize the genesis block first — it returns zero blocks, not the
claimed one. -/
theorem fresh_read_no_bootstrap_cex :
    (api_ledger none 50).length = 0 ∧ (0 : Nat) ≠ 1 := by
  decide

/-- C6 (amended): when no persisted chain exists, `add_block` first
materializes the genesis block before appending, but the read endpoint does
not: `read(50)` on a fresh store returns the empty chain. Once the ledger is
initialized (on startup or by a first append), `read(50)` returns exactly one
block with index 0, data `{genesis: true}`, and `prev_hash` of 64 zero
characters. -/
theorem bootstrap_append_not_read (tg t : ℚ) (et : String) (p : Json) :
    api_ledger none 50 = [] ∧
    (add_block none et p tg t).1 =
      some [genesisBlock tg, newBlock (genesisBlock tg) et p t] ∧
    api_ledger (init_ledger none tg) 50 = [genesisBlock tg] ∧
    (genesisBlock tg).index = 0 ∧
    (genesisBlock tg).data = Json.obj [("genesis", Json.bool true)] ∧
    (genesisBlock tg).prev_hash = String.mk (List.replicate 64 '0') :=
  ⟨rfl, rfl, rfl, rfl, rfl, rfl⟩

/-- C7: `add_block(event_type, payload)` returns a block whose `data` is the
tagged payload — the event type and the payload stored side by side under the
`event`/`payload` tags — and that block is exactly the new tail of the
persisted chain, the rest of which is the chain it read. -/
theorem add_block_tagged_payload (st : LedgerFile) (et : String) (p : Json) (tg t : ℚ)
    (h : loadOrInit st tg ≠ []) :
    ∃ b, (add_block st et p tg t).2 = some b ∧
      b.data = Json.obj [("event", Json.str et), ("payload", p)] ∧
      (add_block st et p tg t).1 = some (loadOrInit st tg ++ [b]) ∧
      (loadOrInit st tg ++ [b]).getLast? = some b := by
  have hex : (loadOrInit st tg).getLast? = some ((loadOrInit st tg).getLast h) :=
    List.getLast?_eq_getLast _ h
  refine ⟨newBlock ((loadOrInit st tg).getLast h) et p t, ?_, rfl, ?_,
    List.getLast?_concat _⟩
  · rw [add_block_eq_some st et p tg t _ hex]
  · rw [add_block_eq_some st et p tg t _ hex]

/-- Witness for C7: an `ALERT` append on the fresh store, which bootstraps to
the genesis chain and then appends the tagged block. -/
theorem add_block_tagged_payload_witness :
    (loadOrInit none 0 ≠ []) ∧
    (∃ b, (add_block none "ALERT" (Json.str "x") 0 1).2 = some b ∧
      b.data = Json.obj [("event", Json.str "ALERT"), ("payload", Json.str "x")] ∧
      (add_block none "ALERT" (Json.str "x") 0 1).1 = some (loadOrInit none 0 ++ [b]) ∧
      (loadOrInit none 0 ++ [b]).getLast? = some b) :=
  ⟨by simp [loadOrInit], add_block_tagged_payload none "ALERT" (Json.str "x") 0 1
    (by simp [loadOrInit])⟩

/-- C8: a reading is classified anomalous exactly when its tamper flag is set
or its temperature is strictly below 2 or strictly above 30; an anomalous
reading causes exactly one `ALERT` append carrying the shipment id,
temperature, tamper flag and timestamp, and a non-anomalous reading causes no
ledger append for that shipment and tick. -/
theorem anomaly_classification (sid : String) (r : Reading) (ts : String) :
    (isAnomalous r = true ↔ (r.tamper = true ∨ r.temp < 2 ∨ 30 < r.temp)) ∧
    (isAnomalous r = true →
      tickShipmentAppends sid r ts = [("ALERT", alertPayload sid r ts)]) ∧
    (isAnomalous r = false → tickShipmentAppends sid r ts = []) := by
  refine ⟨?_, ?_, ?_⟩
  · simp [isAnomalous, Bool.or_eq_true, decide_eq_true_iff, or_assoc]
  · intro h
    simp [tickShipmentAppends, h]
  · intro h
    simp [tickShipmentAppends, h]

/-- Witness for C8: temperature 35 without tamper is anomalous and appends
one ALERT; temperature 20 without tamper appends nothing. -/
theorem anomaly_classification_witness :
    isAnomalous ⟨13, 77, 35, 40, 1008, false⟩ = true ∧
    tickShipmentAppends "SHIP-SIM-1" ⟨13, 77, 35, 40, 1008, false⟩ "2026-01-01" =
      [("ALERT", alertPayload "SHIP-SIM-1" ⟨13, 77, 35, 40, 1008, false⟩ "2026-01-01")] ∧
    tickShipmentAppends "SHIP-SIM-1" ⟨13, 77, 20, 40, 1008, false⟩ "2026-01-01" = [] :=
  ⟨by decide,
   (anomaly_classification "SHIP-SIM-1" ⟨13, 77, 35, 40, 1008, false⟩ "2026-01-01").2.1
     (by decide),
   (anomaly_classification "SHIP-SIM-1" ⟨13, 77, 20, 40, 1008, false⟩ "2026-01-01").2.2
     (by decide)⟩

/-- C9: `start` while the simulation thread is alive is rejected with a
conflict error and mutates nothing — the whole state, including the roster
and the uncleared stop flag, is returned unchanged and no thread is started.
From Idle, `start` creates the roster `SHIP-SIM-1 .. SHIP-SIM-count`, clears
the stop flag, and launches exactly one generator thread. -/
theorem simulate_start_conflict (st : SimState) (count : Nat) :
    (st.threadAlive = true →
      api_simulate_start st count = (st, Except.error "Simulation already running")) ∧
    (st.threadAlive = false →
      api_simulate_start st count =
        ({ threadAlive := true
           stopSet := false
           shipments := st.shipments ++ simRoster count
           threadsStarted := st.threadsStarted + 1 }, Except.ok (simRoster count)) ∧
      simRoster count = (List.range' 1 count).map (fun i => "SHIP-SIM-" ++ toString i)) := by
  constructor
  · intro h
    simp [api_simulate_start, h]
  · intro h
    exact ⟨by simp [api_simulate_start, h], rfl⟩

/-- Witness for C9: a running controller rejects `start(3)` untouched; an
idle one launches with roster `SHIP-SIM-1..3`. -/
theorem simulate_start_conflict_witness :
    api_simulate_start ⟨true, true, ["SHIP-1001"], 1⟩ 3 =
      (⟨true, true, ["SHIP-1001"], 1⟩, Except.error "Simulation already running") ∧
    api_simulate_start ⟨false, true, [], 0⟩ 3 =
      (⟨true, false, simRoster 3, 1⟩, Except.ok (simRoster 3)) :=
  ⟨(simulate_start_conflict ⟨true, true, ["SHIP-1001"], 1⟩ 3).1 rfl,
   ((simulate_start_conflict ⟨false, true, [], 0⟩ 3).2 rfl).1⟩

/-- C10: the genesis hash is computed over the canonical encoding of
`{genesis: true}` alone, so two ledger initializations at different observed
times produce genesis blocks identical in `hash`, `prev_hash`, `data` (and
`index`); only the stored `timestamp` reflects the invocation time. -/
theorem genesis_hash_timestamp_independent (t1 t2 : ℚ) :
    (genesisBlock t1).hash = (genesisBlock t2).hash ∧
    (genesisBlock t1).prev_hash = (genesisBlock t2).prev_hash ∧
    (genesisBlock t1).data = (genesisBlock t2).data ∧
    (genesisBlock t1).index = (genesisBlock t2).index ∧
    (genesisBlock t1).timestamp = t1 ∧
    (genesisBlock t2).timestamp = t2 ∧
    (genesisBlock t1).hash = sha256hex (jsonDumps (Json.obj [("genesis", Json.bool true)])) :=
  ⟨rfl, rfl, rfl, rfl, rfl, rfl, rfl⟩

end PharmaChain
